import Mathlib

/-!
Shallow embedding of `src/lift_example_RIGLER/lift.ts`.

The TypeScript class `Lift` is modelled as a record of its mutable fields.
Every public operation becomes a pure function returning the pair of the
call outcome (`Except LiftError Unit`: `.ok` for a normal return, `.error`
for a thrown exception) and the state of the object afterwards — a thrown
exception in TypeScript leaves the object holding whatever state it had at
throw time, so the state is returned on both paths.

The `async`/`await` timing is modelled by a simulated-time field `time`
(milliseconds) that each `sleep` advances.  The model is sequential, one
command at a time: the fire-and-forget `void this.openDoors()` inside
`updateDirectionIfIdle` is modelled as running to completion with its
outcome discarded — when it is fired while `busy` is set (as happens when
triggered from inside `closeDoors`), it fails the busy check and changes
nothing, exactly like the swallowed promise rejection in the source.

JavaScript `Set` iterates in insertion order, so `panelRequests` is a
duplicate-free list in insertion order; `Set.add` appends only when the
element is absent.  `calls` is an array in push order, duplicates allowed.
-/

/-- Mirror of the source enum `Direction { Up = 1, Down = -1, Idle = 0 }`. -/
inductive Direction
  | Up
  | Down
  | Idle
deriving DecidableEq, Repr

/-- The numeric value of a `Direction` enum member. -/
def Direction.toInt : Direction → Int
  | .Up => 1
  | .Down => -1
  | .Idle => 0

/-- Mirror of the source enum `DoorState { Open, Closed }`. -/
inductive DoorState
  | Open
  | Closed
deriving DecidableEq, Repr

/-- The TypeScript type `Direction.Up | Direction.Down` used for calls. -/
inductive CallDir
  | Up
  | Down
deriving DecidableEq, Repr

/-- Widening of `Direction.Up | Direction.Down` back into `Direction`. -/
def CallDir.toDirection : CallDir → Direction
  | .Up => .Up
  | .Down => .Down

/-- Mirror of `interface Call`: a floor plus an `Up`-or-`Down` direction. -/
structure Call where
  floor : Int
  direction : CallDir
deriving DecidableEq, Repr

/-- The errors the class throws, named after the error kinds of the spec; the
source throws `Error` with a distinguishing message for each. -/
inductive LiftError
  | constructionError
  | outOfRangeError
  | busyError
  | doorsOpenError
  | noDestinationError
deriving DecidableEq, Repr

/-- The state of a `Lift` instance: its fields. -/
structure Lift where
  minFloor : Int
  maxFloor : Int
  currentFloor : Int
  direction : Direction
  doors : DoorState
  /-- The `Set<number>` of panel requests, as its insertion-order list. -/
  panelRequests : List Int
  calls : List Call
  busy : Bool
  /-- Simulated milliseconds slept so far (1000 per door action, 3000 per move). -/
  time : Nat
deriving DecidableEq, Repr

/-- The constructor: validates `minFloor <= maxFloor` and `startFloor` in
range, else throws. -/
def mkLift (minFloor maxFloor startFloor : Int) : Except LiftError Lift :=
  if minFloor > maxFloor then .error .constructionError
  else if startFloor < minFloor ∨ startFloor > maxFloor then .error .constructionError
  else .ok
    { minFloor := minFloor
      maxFloor := maxFloor
      currentFloor := startFloor
      direction := .Idle
      doors := .Closed
      panelRequests := []
      calls := []
      busy := false
      time := 0 }

/-- Getter `pendingPanelRequests`: the set as an ascending sorted array. -/
def Lift.pendingPanelRequests (s : Lift) : List Int :=
  s.panelRequests.insertionSort (· ≤ ·)

/-- Getter `pendingCalls`: a copy of the calls array, insertion order. -/
def Lift.pendingCalls (s : Lift) : List Call :=
  s.calls

/-- Helper `hasPendingRequests`: `panelRequests.size > 0 || calls.length > 0`. -/
def Lift.hasPendingRequests (s : Lift) : Bool :=
  !s.panelRequests.isEmpty || !s.calls.isEmpty

/-- The `Set.add` step of `pressButton`: appends the floor unless already present. -/
def Lift.addPanel (s : Lift) (floor : Int) : Lift :=
  if floor ∈ s.panelRequests then s
  else { s with panelRequests := s.panelRequests ++ [floor] }

/-- Helper `fulfillAtCurrentFloor`: `panelRequests.delete(current)` and
`calls = calls.filter(c => c.floor !== current)`. -/
def Lift.fulfillAtCurrentFloor (s : Lift) : Lift :=
  { s with
    panelRequests := s.panelRequests.filter (fun f => f ≠ s.currentFloor)
    calls := s.calls.filter (fun c => c.floor ≠ s.currentFloor) }

/-- Operation `openDoors()`: no-op if already open; `BusyError` if busy; otherwise
sleep 1s, open, fulfill at the current floor, go idle if nothing pending. -/
def Lift.openDoors (s : Lift) : Except LiftError Unit × Lift :=
  if s.doors = DoorState.Open then (.ok (), s)
  else if s.busy then (.error .busyError, s)
  else
    let s1 := { s with busy := true, time := s.time + 1000, doors := DoorState.Open }
    let s2 := s1.fulfillAtCurrentFloor
    let s3 := if s2.hasPendingRequests then s2 else { s2 with direction := Direction.Idle }
    (.ok (), { s3 with busy := false })

/-- The `for (const t of targets)` nearest-target scan: strict `<` keeps the
earliest of equally distant candidates. -/
def nearestScan (cur : Int) : List Int → Int → Int
  | [], acc => acc
  | t :: ts, acc =>
    if (t - cur).natAbs < (acc - cur).natAbs then nearestScan cur ts t
    else nearestScan cur ts acc

/-- Helper `updateDirectionIfIdle`: when idle, pick the nearest target out of
`[...panelRequests, ...calls.map(c => c.floor)]` and set the direction
toward it; when the nearest target is the current floor, stay idle and
fire-and-forget `openDoors()` (its outcome discarded). -/
def Lift.updateDirectionIfIdle (s : Lift) : Lift :=
  if s.direction ≠ Direction.Idle then s
  else if !s.hasPendingRequests then { s with direction := Direction.Idle }
  else
    let targets := s.panelRequests ++ s.calls.map (fun c => c.floor)
    match targets with
    | [] => s
    | t0 :: _ =>
      let nearest := nearestScan s.currentFloor targets t0
      let newDir :=
        if nearest > s.currentFloor then Direction.Up
        else if nearest < s.currentFloor then Direction.Down
        else Direction.Idle
      let s1 := { s with direction := newDir }
      if newDir = Direction.Idle then (s1.openDoors).2 else s1

/-- Command `pressButton(floor)`: range check, `Set.add`, re-evaluate if idle. -/
def Lift.pressButton (s : Lift) (floor : Int) : Except LiftError Unit × Lift :=
  if floor < s.minFloor ∨ floor > s.maxFloor then (.error .outOfRangeError, s)
  else (.ok (), (s.addPanel floor).updateDirectionIfIdle)

/-- Command `callFrom(floor, direction)`: range check, push the call, re-evaluate
if idle. -/
def Lift.callFrom (s : Lift) (floor : Int) (dir : CallDir) : Except LiftError Unit × Lift :=
  if floor < s.minFloor ∨ floor > s.maxFloor then (.error .outOfRangeError, s)
  else (.ok (), { s with calls := s.calls ++ [Call.mk floor dir] }.updateDirectionIfIdle)

/-- Operation `closeDoors()`: no-op if already closed; `BusyError` if busy; otherwise
sleep 1s, close, re-evaluate direction (with `busy` still set, so a
fire-and-forget `openDoors` from the evaluation fails its busy check). -/
def Lift.closeDoors (s : Lift) : Except LiftError Unit × Lift :=
  if s.doors = DoorState.Closed then (.ok (), s)
  else if s.busy then (.error .busyError, s)
  else
    let s1 := { s with busy := true, time := s.time + 1000, doors := DoorState.Closed }
    let s2 := s1.updateDirectionIfIdle
    (.ok (), { s2 with busy := false })

/-- Helper `shouldStopAtFloor(floor)`: panel request here, or a call here and
(idle, or some call here matching the travel direction). -/
def Lift.shouldStopAtFloor (s : Lift) (floor : Int) : Bool :=
  if floor ∈ s.panelRequests then true
  else
    let callsHere := s.calls.filter (fun c => c.floor = floor)
    if callsHere.isEmpty then false
    else if s.direction = Direction.Idle then true
    else callsHere.any (fun c => c.direction.toDirection = s.direction)

/-- Operation `moveOneFloor()`: doors-open check, busy check, idle re-evaluation and
`NoDestinationError`, edge reversal, else a 3s move followed by the stop
decision and a chained `openDoors()`. -/
def Lift.moveOneFloor (s : Lift) : Except LiftError Unit × Lift :=
  if s.doors = DoorState.Open then (.error .doorsOpenError, s)
  else if s.busy then (.error .busyError, s)
  else
    let s1 := if s.direction = Direction.Idle then s.updateDirectionIfIdle else s
    if s1.direction = Direction.Idle then (.error .noDestinationError, s1)
    else
      let next := s1.currentFloor + s1.direction.toInt
      if next < s1.minFloor ∨ next > s1.maxFloor then
        (.ok (),
          { s1 with direction := if s1.direction = Direction.Up then Direction.Down else Direction.Up })
      else
        let s2 := { s1 with currentFloor := next, time := s1.time + 3000 }
        if s2.shouldStopAtFloor next then s2.openDoors else (.ok (), s2)

/-- Operation `stepUntilStop(maxSteps)`: repeat `moveOneFloor()` until the doors are
open, the direction is idle, or the step bound runs out; an exception from
`moveOneFloor` propagates. -/
def Lift.stepUntilStop (s : Lift) : Nat → Except LiftError Unit × Lift
  | 0 => (.ok (), s)
  | n + 1 =>
    if s.doors = DoorState.Open ∨ s.direction = Direction.Idle then (.ok (), s)
    else
      match s.moveOneFloor with
      | (.ok _, s') => s'.stepUntilStop n
      | (.error e, s') => (.error e, s')

/-- One public operation, as issued by an external caller. -/
inductive Op
  | press (floor : Int)
  | call (floor : Int) (dir : CallDir)
  | openD
  | closeD
  | move
  | step (maxSteps : Nat)

/-- The state after issuing an operation (whether or not it threw: a thrown
exception leaves the object in the state it had at throw time). -/
def applyOp (o : Op) (s : Lift) : Lift :=
  match o with
  | .press f => (s.pressButton f).2
  | .call f d => (s.callFrom f d).2
  | .openD => s.openDoors.2
  | .closeD => s.closeDoors.2
  | .move => s.moveOneFloor.2
  | .step n => (s.stepUntilStop n).2

/-- A state is reachable when some validly constructed lift evolves into it
under a sequence of public operations. -/
inductive Reachable : Lift → Prop
  | init (minF maxF startF : Int) (s : Lift) : mkLift minF maxF startF = .ok s → Reachable s
  | step (s : Lift) (o : Op) : Reachable s → Reachable (applyOp o s)

/-- Formalisation of the spec sentence "select the candidate with minimum
absolute distance from `currentFloor`; ties broken by first-encountered
order": `x` occurs in the candidate list, no candidate is strictly closer,
and every candidate listed before `x` is strictly farther. -/
def FirstNearest (cur : Int) (ts : List Int) (x : Int) : Prop :=
  (∀ t ∈ ts, (x - cur).natAbs ≤ (t - cur).natAbs) ∧
  ∃ pre post, ts = pre ++ x :: post ∧
    ∀ t ∈ pre, (x - cur).natAbs < (t - cur).natAbs

/-- The candidate list in the order claim C3 asserts it: panel floors
sorted ascending, then call floors in insertion order. -/
def ascendingTargets (s : Lift) : List Int :=
  s.panelRequests.insertionSort (· ≤ ·) ++ s.calls.map (fun c => c.floor)

/-! Concrete states used by witnesses and counterexamples. -/

/-- The freshly constructed car of the scenario in the spec: `(min=1, max=5, start=3)`. -/
def lift153 : Lift :=
  { minFloor := 1, maxFloor := 5, currentFloor := 3, direction := .Idle,
    doors := .Closed, panelRequests := [], calls := [], busy := false, time := 0 }

/-- Panel floors 5 and 3 pressed in that order, car idle at floor 4. -/
def cex3 : Lift :=
  { minFloor := 1, maxFloor := 10, currentFloor := 4, direction := .Idle,
    doors := .Closed, panelRequests := [5, 3], calls := [], busy := false, time := 0 }

/-- A busy car with its doors open. -/
def cex6 : Lift :=
  { minFloor := 1, maxFloor := 5, currentFloor := 2, direction := .Idle,
    doors := .Open, panelRequests := [], calls := [], busy := true, time := 0 }

/-- Idle at floor 4 with doors closed and a panel request for floor 4
(reached e.g. by pressing 4 while parked open at 4 and then closing the
doors, whose in-flight busy flag swallows the fire-and-forget door-open). -/
def cex7 : Lift :=
  { minFloor := 1, maxFloor := 10, currentFloor := 4, direction := .Idle,
    doors := .Closed, panelRequests := [4], calls := [], busy := false, time := 0 }

/-- Parked open at floor 2 with requests there and elsewhere. -/
def w2 : Lift :=
  { minFloor := 1, maxFloor := 5, currentFloor := 2, direction := .Up,
    doors := .Closed, panelRequests := [2, 5], calls := [⟨2, .Up⟩, ⟨3, .Down⟩],
    busy := false, time := 0 }

/-- Moving down through floor 3 toward a down call at floor 2. -/
def w4 : Lift :=
  { minFloor := 1, maxFloor := 5, currentFloor := 3, direction := .Down,
    doors := .Closed, panelRequests := [], calls := [⟨2, .Down⟩], busy := false, time := 0 }

/-- At the top floor moving up with a pending request below. -/
def w5 : Lift :=
  { minFloor := 1, maxFloor := 5, currentFloor := 5, direction := .Up,
    doors := .Closed, panelRequests := [2], calls := [], busy := false, time := 0 }

/-- Busy with doors closed. -/
def w6 : Lift :=
  { minFloor := 1, maxFloor := 5, currentFloor := 2, direction := .Up,
    doors := .Closed, panelRequests := [3], calls := [], busy := true, time := 0 }

/-- Busy with doors open and a pending call. -/
def w8 : Lift :=
  { minFloor := 1, maxFloor := 9, currentFloor := 7, direction := .Down,
    doors := .Open, panelRequests := [1], calls := [⟨4, .Up⟩], busy := true, time := 0 }

/-- Busy with doors closed (close-doors no-op witness). -/
def w10 : Lift :=
  { minFloor := 1, maxFloor := 9, currentFloor := 7, direction := .Down,
    doors := .Closed, panelRequests := [1], calls := [], busy := true, time := 0 }

/-! Frame lemmas: which fields each operation can touch. -/

theorem Lift.openDoors_floorEq (s : Lift) :
    (s.openDoors).2.minFloor = s.minFloor ∧ (s.openDoors).2.maxFloor = s.maxFloor ∧
    (s.openDoors).2.currentFloor = s.currentFloor := by
  unfold Lift.openDoors
  dsimp only
  split
  · exact ⟨rfl, rfl, rfl⟩
  split
  · exact ⟨rfl, rfl, rfl⟩
  split <;> exact ⟨rfl, rfl, rfl⟩

theorem Lift.openDoors_minFloor (s : Lift) : (s.openDoors).2.minFloor = s.minFloor :=
  (Lift.openDoors_floorEq s).1

theorem Lift.openDoors_maxFloor (s : Lift) : (s.openDoors).2.maxFloor = s.maxFloor :=
  (Lift.openDoors_floorEq s).2.1

theorem Lift.openDoors_currentFloor (s : Lift) :
    (s.openDoors).2.currentFloor = s.currentFloor :=
  (Lift.openDoors_floorEq s).2.2

theorem Lift.updateDirectionIfIdle_floorEq (s : Lift) :
    s.updateDirectionIfIdle.minFloor = s.minFloor ∧
    s.updateDirectionIfIdle.maxFloor = s.maxFloor ∧
    s.updateDirectionIfIdle.currentFloor = s.currentFloor := by
  unfold Lift.updateDirectionIfIdle
  split
  · exact ⟨rfl, rfl, rfl⟩
  split
  · exact ⟨rfl, rfl, rfl⟩
  rcases h : s.panelRequests ++ s.calls.map (fun c => c.floor) with _ | ⟨t0, ts⟩ <;>
    simp only [h]
  · exact ⟨trivial, trivial, trivial⟩
  · repeat' split
    all_goals
      simp_all [Lift.openDoors_minFloor, Lift.openDoors_maxFloor, Lift.openDoors_currentFloor]

theorem Lift.pressButton_floorEq (s : Lift) (f : Int) :
    (s.pressButton f).2.minFloor = s.minFloor ∧ (s.pressButton f).2.maxFloor = s.maxFloor ∧
    (s.pressButton f).2.currentFloor = s.currentFloor := by
  unfold Lift.pressButton
  split
  · exact ⟨rfl, rfl, rfl⟩
  · have h := Lift.updateDirectionIfIdle_floorEq (s.addPanel f)
    unfold Lift.addPanel at h ⊢
    split at h <;> simp_all

theorem Lift.callFrom_floorEq (s : Lift) (f : Int) (d : CallDir) :
    (s.callFrom f d).2.minFloor = s.minFloor ∧ (s.callFrom f d).2.maxFloor = s.maxFloor ∧
    (s.callFrom f d).2.currentFloor = s.currentFloor := by
  unfold Lift.callFrom
  split
  · exact ⟨rfl, rfl, rfl⟩
  · exact Lift.updateDirectionIfIdle_floorEq _

theorem Lift.closeDoors_floorEq (s : Lift) :
    (s.closeDoors).2.minFloor = s.minFloor ∧ (s.closeDoors).2.maxFloor = s.maxFloor ∧
    (s.closeDoors).2.currentFloor = s.currentFloor := by
  unfold Lift.closeDoors
  dsimp only
  split
  · exact ⟨rfl, rfl, rfl⟩
  split
  · exact ⟨rfl, rfl, rfl⟩
  · have h := Lift.updateDirectionIfIdle_floorEq
      { s with busy := true, time := s.time + 1000, doors := DoorState.Closed }
    simpa using h

/-! The nearest-target scan meets the first-encountered-minimum spec. -/

/-- Invariant of the scan loop: the result either is the accumulator (then
the accumulator already beats every remaining candidate) or is the first
candidate strictly closer than both the accumulator and everything scanned
before it, and no later candidate is strictly closer. -/
theorem nearestScan_spec (cur : Int) (ts : List Int) : ∀ acc : Int,
    (nearestScan cur ts acc = acc ∧
      ∀ t ∈ ts, (acc - cur).natAbs ≤ (t - cur).natAbs)
    ∨ (∃ pre post, ts = pre ++ nearestScan cur ts acc :: post
        ∧ (nearestScan cur ts acc - cur).natAbs < (acc - cur).natAbs
        ∧ (∀ t ∈ pre, (nearestScan cur ts acc - cur).natAbs < (t - cur).natAbs)
        ∧ (∀ t ∈ post, (nearestScan cur ts acc - cur).natAbs ≤ (t - cur).natAbs)) := by
  induction ts with
  | nil =>
    intro acc
    left
    exact ⟨rfl, by simp⟩
  | cons t ts ih =>
    intro acc
    unfold nearestScan
    split
    · rename_i hlt
      rcases ih t with ⟨heq, hmin⟩ | ⟨pre, post, hdecomp, hless, hpre, hpost⟩
      · right
        refine ⟨[], ts, ?_, ?_, ?_, ?_⟩
        · rw [heq]; simp
        · rw [heq]; exact hlt
        · simp
        · intro x hx; rw [heq]; exact hmin x hx
      · right
        refine ⟨t :: pre, post, ?_, ?_, ?_, hpost⟩
        · simp only [List.cons_append]
          exact congrArg (List.cons t) hdecomp
        · exact lt_trans hless hlt
        · intro x hx
          rcases List.mem_cons.mp hx with hx | hx
          · rw [hx]; exact hless
          · exact hpre x hx
    · rename_i hge
      push_neg at hge
      rcases ih acc with ⟨heq, hmin⟩ | ⟨pre, post, hdecomp, hless, hpre, hpost⟩
      · left
        refine ⟨heq, ?_⟩
        intro x hx
        rcases List.mem_cons.mp hx with hx | hx
        · rw [hx]; exact hge
        · exact hmin x hx
      · right
        refine ⟨t :: pre, post, ?_, hless, ?_, hpost⟩
        · simp only [List.cons_append]
          exact congrArg (List.cons t) hdecomp
        · intro x hx
          rcases List.mem_cons.mp hx with hx | hx
          · rw [hx]; exact lt_of_lt_of_le hless hge
          · exact hpre x hx

/-- The scan of the source, started like the source on the head of the list,
computes exactly the first-encountered minimum-distance candidate. -/
theorem firstNearest_nearestScan (cur t0 : Int) (ts : List Int) :
    FirstNearest cur (t0 :: ts) (nearestScan cur (t0 :: ts) t0) := by
  have hred : nearestScan cur (t0 :: ts) t0 = nearestScan cur ts t0 := by
    rw [nearestScan]
    simp
  rw [hred]
  rcases nearestScan_spec cur ts t0 with ⟨heq, hmin⟩ | ⟨pre, post, hdecomp, hless, hpre, hpost⟩
  · constructor
    · intro x hx
      rcases List.mem_cons.mp hx with hx | hx
      · rw [hx, heq]
      · rw [heq]; exact hmin x hx
    · exact ⟨[], ts, by rw [heq]; simp, by simp⟩
  · constructor
    · intro x hx
      rcases List.mem_cons.mp hx with hx | hx
      · rw [hx]; exact le_of_lt hless
      · rw [hdecomp] at hx
        rcases List.mem_append.mp hx with hx | hx
        · exact le_of_lt (hpre x hx)
        · rcases List.mem_cons.mp hx with hx | hx
          · rw [hx]
          · exact hpost x hx
    · refine ⟨t0 :: pre, post, by
        simp only [List.cons_append]
        exact congrArg (List.cons t0) hdecomp, ?_⟩
      intro x hx
      rcases List.mem_cons.mp hx with hx | hx
      · rw [hx]; exact hless
      · exact hpre x hx

/-- A first-nearest candidate is a member of the candidate list. -/
theorem FirstNearest.mem {cur : Int} {ts : List Int} {x : Int}
    (h : FirstNearest cur ts x) : x ∈ ts := by
  obtain ⟨_, pre, post, hdecomp, _⟩ := h
  rw [hdecomp]
  exact List.mem_append.mpr (Or.inr (List.mem_cons_self x post))

/-- Opening the doors never turns a non-idle direction into a different non-idle
one, and keeps an idle direction idle. -/
theorem Lift.openDoors_direction_idle (s : Lift) (h : s.direction = Direction.Idle) :
    (s.openDoors).2.direction = Direction.Idle := by
  unfold Lift.openDoors
  repeat' split
  all_goals simp_all [Lift.fulfillAtCurrentFloor]

/-! Claim theorems. -/

/-- C8: whenever the doors are open, `moveOneFloor()` fails with
`DoorsOpenError` and changes nothing, regardless of the busy flag, the
direction, or the pending requests — the doors-open check runs first. -/
theorem no_move_with_open_doors (s : Lift) (hd : s.doors = DoorState.Open) :
    s.moveOneFloor = (Except.error LiftError.doorsOpenError, s) := by
  unfold Lift.moveOneFloor
  rw [if_pos hd]

/-- Witness for C8 at a busy state with doors open and pending requests. -/
theorem no_move_with_open_doors_witness :
    w8.doors = DoorState.Open ∧ w8.busy = true ∧
    w8.moveOneFloor = (Except.error LiftError.doorsOpenError, w8) :=
  ⟨rfl, rfl, no_move_with_open_doors w8 rfl⟩

/-- C10: `openDoors()` on already-open doors and `closeDoors()` on
already-closed doors return successfully without touching any state, even
when `busy` is set: the no-op early return precedes the busy check. -/
theorem noop_precedence (s : Lift) :
    (s.doors = DoorState.Open → s.openDoors = (Except.ok (), s)) ∧
    (s.doors = DoorState.Closed → s.closeDoors = (Except.ok (), s)) := by
  constructor
  · intro h
    unfold Lift.openDoors
    rw [if_pos h]
  · intro h
    unfold Lift.closeDoors
    rw [if_pos h]

/-- Witness for C10 at two busy states, doors open resp. closed. -/
theorem noop_precedence_witness :
    w8.busy = true ∧ w8.openDoors = (Except.ok (), w8) ∧
    w10.busy = true ∧ w10.closeDoors = (Except.ok (), w10) :=
  ⟨rfl, (noop_precedence w8).1 rfl, rfl, (noop_precedence w10).2 rfl⟩

/-- C5: with doors closed, not busy, a travel direction set, and the next
floor out of `[minFloor, maxFloor]`, `moveOneFloor()` flips the direction
(`Up` to `Down`, `Down` to `Up`) and returns successfully at once: the
current floor, the busy flag and the simulated clock are untouched. -/
theorem edge_reversal (s : Lift)
    (hd : s.doors = DoorState.Closed) (hb : s.busy = false)
    (hdir : s.direction = Direction.Up ∨ s.direction = Direction.Down)
    (hout : s.currentFloor + s.direction.toInt < s.minFloor ∨
            s.currentFloor + s.direction.toInt > s.maxFloor) :
    s.moveOneFloor =
      (Except.ok (),
        { s with direction :=
            if s.direction = Direction.Up then Direction.Down else Direction.Up }) ∧
    (s.moveOneFloor).2.currentFloor = s.currentFloor ∧
    (s.moveOneFloor).2.busy = false ∧
    (s.moveOneFloor).2.time = s.time ∧
    (s.direction = Direction.Up → (s.moveOneFloor).2.direction = Direction.Down) ∧
    (s.direction = Direction.Down → (s.moveOneFloor).2.direction = Direction.Up) := by
  have hne : s.direction ≠ Direction.Idle := by
    rcases hdir with h | h <;> rw [h] <;> simp
  have he : s.moveOneFloor =
      (Except.ok (),
        { s with direction :=
            if s.direction = Direction.Up then Direction.Down else Direction.Up }) := by
    unfold Lift.moveOneFloor
    rw [hd, hb]
    simp only [if_neg (by simp : ¬ (DoorState.Closed = DoorState.Open)), Bool.false_eq_true,
      if_neg (by simp : ¬ False), if_neg hne, if_pos hout]
    rw [← hd, ← hb]
  refine ⟨he, ?_, ?_, ?_, ?_, ?_⟩ <;> rw [he] <;> intros <;> simp_all [hb]

/-- Witness for C5: at `maxFloor` moving `Up` with a request below, one
`moveOneFloor()` reverses to `Down` in place, at no simulated time cost. -/
theorem edge_reversal_witness :
    w5.currentFloor = w5.maxFloor ∧ w5.direction = Direction.Up ∧
    (w5.moveOneFloor =
      (Except.ok (),
        { w5 with direction :=
            if w5.direction = Direction.Up then Direction.Down else Direction.Up }) ∧
    (w5.moveOneFloor).2.currentFloor = w5.currentFloor ∧
    (w5.moveOneFloor).2.busy = false ∧
    (w5.moveOneFloor).2.time = w5.time ∧
    (w5.direction = Direction.Up → (w5.moveOneFloor).2.direction = Direction.Down) ∧
    (w5.direction = Direction.Down → (w5.moveOneFloor).2.direction = Direction.Up)) :=
  ⟨rfl, rfl, edge_reversal w5 rfl rfl (Or.inl rfl) (by decide)⟩

/-- The full (non-no-op, non-busy) path of `openDoors` succeeds and leaves
the doors open. -/
theorem Lift.openDoors_run (s : Lift) (hd : ¬ s.doors = DoorState.Open)
    (hb : s.busy = false) :
    (s.openDoors).1 = Except.ok () ∧ (s.openDoors).2.doors = DoorState.Open := by
  unfold Lift.openDoors
  rw [if_neg hd, hb]
  refine ⟨by simp, ?_⟩
  dsimp only
  simp only [Bool.false_eq_true, if_false]
  split <;> rfl

/-- The stop predicate, characterised as the spec states it. -/
theorem Lift.shouldStopAtFloor_iff (s : Lift) (floor : Int) :
    s.shouldStopAtFloor floor = true ↔
      (floor ∈ s.panelRequests ∨
        ((∃ c ∈ s.calls, c.floor = floor) ∧
          (s.direction = Direction.Idle ∨
            ∃ c ∈ s.calls, c.floor = floor ∧ c.direction.toDirection = s.direction))) := by
  unfold Lift.shouldStopAtFloor
  by_cases hp : floor ∈ s.panelRequests
  · simp [hp]
  · rw [if_neg hp]
    rcases hfe : s.calls.filter (fun c => c.floor = floor) with _ | ⟨c0, cs⟩
    · have hnc : ¬ ∃ c ∈ s.calls, c.floor = floor := by
        rintro ⟨c, hcm, hcf⟩
        have hmem : c ∈ s.calls.filter (fun c => c.floor = floor) :=
          List.mem_filter.mpr ⟨hcm, by simp [hcf]⟩
        rw [hfe] at hmem
        cases hmem
      simp [hp, hnc]
    · have hcex : ∃ c ∈ s.calls, c.floor = floor := by
        have hmem : c0 ∈ s.calls.filter (fun c => c.floor = floor) := by
          rw [hfe]
          exact List.mem_cons_self c0 cs
        have h := List.mem_filter.mp hmem
        exact ⟨c0, h.1, by simpa using h.2⟩
      rw [hfe]
      simp only [List.isEmpty_cons, Bool.false_eq_true, if_false]
      by_cases hidle : s.direction = Direction.Idle
      · simp [hidle, hp, hcex]
      · rw [if_neg hidle]
        constructor
        · intro h
          refine Or.inr ⟨hcex, Or.inr ?_⟩
          obtain ⟨c, hcm, hcd⟩ := List.any_eq_true.mp h
          have hcm' : c ∈ s.calls.filter (fun c => c.floor = floor) := by
            rw [hfe]
            exact hcm
          have h2 := List.mem_filter.mp hcm'
          exact ⟨c, h2.1, by simpa using h2.2, by simpa using hcd⟩
        · rintro (h | ⟨-, h⟩)
          · exact absurd h hp
          rcases h with hidle' | ⟨c, hcm, hcf, hcd⟩
          · exact absurd hidle' hidle
          · refine List.any_eq_true.mpr ⟨c, ?_, by simp [hcd]⟩
            have : c ∈ s.calls.filter (fun c => c.floor = floor) :=
              List.mem_filter.mpr ⟨hcm, by simp [hcf]⟩
            rw [hfe] at this
            exact this

/-- C4: when the car actually travels one floor (doors closed, not busy, a
travel direction set, next floor in range), it arrives and its doors end up
open exactly when the arrival floor has a panel request, or has at least
one call and either the direction is idle or some call there matches the
travel direction. -/
theorem stop_decision (s : Lift)
    (hd : s.doors = DoorState.Closed) (hb : s.busy = false)
    (hdir : s.direction ≠ Direction.Idle)
    (hin : ¬(s.currentFloor + s.direction.toInt < s.minFloor ∨
             s.currentFloor + s.direction.toInt > s.maxFloor)) :
    (s.moveOneFloor).1 = Except.ok () ∧
    (s.moveOneFloor).2.currentFloor = s.currentFloor + s.direction.toInt ∧
    ((s.moveOneFloor).2.doors = DoorState.Open ↔
      (s.currentFloor + s.direction.toInt ∈ s.panelRequests ∨
        ((∃ c ∈ s.calls, c.floor = s.currentFloor + s.direction.toInt) ∧
          (s.direction = Direction.Idle ∨
            ∃ c ∈ s.calls, c.floor = s.currentFloor + s.direction.toInt ∧
              c.direction.toDirection = s.direction)))) := by
  have hdo : ¬ s.doors = DoorState.Open := by rw [hd]; simp
  have hmv : s.moveOneFloor =
      (if Lift.shouldStopAtFloor
            { s with currentFloor := s.currentFloor + s.direction.toInt, time := s.time + 3000 }
            (s.currentFloor + s.direction.toInt) then
        Lift.openDoors
          { s with currentFloor := s.currentFloor + s.direction.toInt, time := s.time + 3000 }
      else
        (Except.ok (),
          { s with currentFloor := s.currentFloor + s.direction.toInt, time := s.time + 3000 })) := by
    unfold Lift.moveOneFloor
    rw [if_neg hdo, hb]
    simp only [Bool.false_eq_true, if_false, if_neg hdir, if_neg hin]
    rw [hb]
  have hiff := Lift.shouldStopAtFloor_iff
      { s with currentFloor := s.currentFloor + s.direction.toInt, time := s.time + 3000 }
      (s.currentFloor + s.direction.toInt)
  rw [hmv]
  rcases hstop : Lift.shouldStopAtFloor
      { s with currentFloor := s.currentFloor + s.direction.toInt, time := s.time + 3000 }
      (s.currentFloor + s.direction.toInt) with _ | _
  · -- no stop: the car just sits at the new floor with the doors closed
    simp only [Bool.false_eq_true, if_false]
    refine ⟨trivial, trivial, ?_⟩
    constructor
    · intro h
      exact absurd h (by simp [hd])
    · intro h
      exact absurd (hiff.mpr h) (by simp [hstop])
  · -- stop: doors end up open via the chained openDoors
    simp only [if_true]
    have hrun := Lift.openDoors_run
        { s with currentFloor := s.currentFloor + s.direction.toInt, time := s.time + 3000 }
        hdo hb
    refine ⟨hrun.1, ?_, ?_⟩
    · rw [Lift.openDoors_currentFloor]
    · constructor
      · intro _
        exact hiff.mp hstop
      · intro _
        exact hrun.2

/-- Witness for C4: moving down through floor 2 with a down call there, the
car arrives and stops. -/
theorem stop_decision_witness :
    (w4.moveOneFloor).1 = Except.ok () ∧
    (w4.moveOneFloor).2.currentFloor = w4.currentFloor + w4.direction.toInt ∧
    ((w4.moveOneFloor).2.doors = DoorState.Open ↔
      (w4.currentFloor + w4.direction.toInt ∈ w4.panelRequests ∨
        ((∃ c ∈ w4.calls, c.floor = w4.currentFloor + w4.direction.toInt) ∧
          (w4.direction = Direction.Idle ∨
            ∃ c ∈ w4.calls, c.floor = w4.currentFloor + w4.direction.toInt ∧
              c.direction.toDirection = w4.direction)))) :=
  stop_decision w4 rfl rfl (by decide) (by decide)

/-- C2: the full (non-no-op, non-busy) `openDoors()` path succeeds, leaves
the doors open at the same floor, removes the current floor from the panel
requests and every call at it, keeps requests and calls for other floors
(with multiplicity), and goes idle exactly when nothing remains pending. -/
theorem fulfillment_completeness (s : Lift)
    (hd : s.doors = DoorState.Closed) (hb : s.busy = false) :
    (s.openDoors).1 = Except.ok () ∧
    (s.openDoors).2.doors = DoorState.Open ∧
    (s.openDoors).2.currentFloor = s.currentFloor ∧
    s.currentFloor ∉ (s.openDoors).2.pendingPanelRequests ∧
    (∀ c ∈ (s.openDoors).2.pendingCalls, c.floor ≠ s.currentFloor) ∧
    (∀ f : Int, f ≠ s.currentFloor →
      (f ∈ (s.openDoors).2.panelRequests ↔ f ∈ s.panelRequests)) ∧
    (∀ c : Call, c.floor ≠ s.currentFloor →
      (s.openDoors).2.calls.count c = s.calls.count c) ∧
    ((s.openDoors).2.panelRequests = [] → (s.openDoors).2.calls = [] →
      (s.openDoors).2.direction = Direction.Idle) := by
  have hdo : ¬ s.doors = DoorState.Open := by rw [hd]; simp
  have key : (s.openDoors).2 =
      (let s2 : Lift :=
        { s with
          busy := true
          time := s.time + 1000
          doors := DoorState.Open
          panelRequests := s.panelRequests.filter (fun f => f ≠ s.currentFloor)
          calls := s.calls.filter (fun c => c.floor ≠ s.currentFloor) }
      if s2.hasPendingRequests then { s2 with busy := false }
      else { s2 with direction := Direction.Idle, busy := false }) := by
    unfold Lift.openDoors Lift.fulfillAtCurrentFloor
    rw [if_neg hdo, hb]
    simp only [Bool.false_eq_true, if_false]
    dsimp only
    split <;> rfl
  have hok : (s.openDoors).1 = Except.ok () := (Lift.openDoors_run s hdo hb).1
  rw [key]
  dsimp only
  refine ⟨hok, ?_, ?_, ?_, ?_, ?_, ?_, ?_⟩
  · split <;> rfl
  · split <;> rfl
  · split <;>
      · unfold Lift.pendingPanelRequests
        intro hmem
        rw [List.mem_insertionSort] at hmem
        have := List.mem_filter.mp hmem
        simp at this
  · split <;>
      · unfold Lift.pendingCalls
        intro c hmem
        have := List.mem_filter.mp hmem
        simpa using this.2
  · split <;>
      · intro f hf
        constructor
        · intro hmem
          exact (List.mem_filter.mp hmem).1
        · intro hmem
          exact List.mem_filter.mpr ⟨hmem, by simpa using hf⟩
  · split <;>
      · intro c hc
        exact List.count_filter (by simpa using hc)
  · split
    · rename_i hpend
      intro hp hc
      dsimp only at hp hc
      unfold Lift.hasPendingRequests at hpend
      rw [hp, hc] at hpend
      simp at hpend
    · intro _ _
      rfl

/-- Witness for C2: opening at floor 2 clears the panel request and the
call at floor 2 while the other requests survive. -/
theorem fulfillment_completeness_witness :
    (w2.openDoors).1 = Except.ok () ∧
    w2.currentFloor ∉ (w2.openDoors).2.pendingPanelRequests ∧
    (∀ c ∈ (w2.openDoors).2.pendingCalls, c.floor ≠ w2.currentFloor) := by
  obtain ⟨h1, _, _, h4, h5, _⟩ := fulfillment_completeness w2 rfl rfl
  exact ⟨h1, h4, h5⟩

/-- With the car idle and something pending, the idle dispatch picks the
first-encountered minimum-distance candidate out of the panel-request
floors in Set insertion order followed by the call floors in insertion
order, and steers toward it. -/
theorem Lift.updateDirection_selects (s : Lift)
    (hidle : s.direction = Direction.Idle)
    (hpend : s.hasPendingRequests = true) :
    ∃ x, FirstNearest s.currentFloor (s.panelRequests ++ s.calls.map (fun c => c.floor)) x ∧
      s.updateDirectionIfIdle.direction =
        (if x > s.currentFloor then Direction.Up
         else if x < s.currentFloor then Direction.Down
         else Direction.Idle) ∧
      (x = s.currentFloor →
        s.updateDirectionIfIdle = ({ s with direction := Direction.Idle }.openDoors).2) ∧
      (x ≠ s.currentFloor →
        s.updateDirectionIfIdle =
          { s with direction :=
              if x > s.currentFloor then Direction.Up else Direction.Down }) := by
  have hne : ¬ s.direction ≠ Direction.Idle := by rw [hidle]; simp
  rcases htg : s.panelRequests ++ s.calls.map (fun c => c.floor) with _ | ⟨t0, ts⟩
  · exfalso
    rw [List.append_eq_nil] at htg
    unfold Lift.hasPendingRequests at hpend
    rw [htg.1, List.map_eq_nil_iff.mp htg.2] at hpend
    simp at hpend
  · have hfn := firstNearest_nearestScan s.currentFloor t0 ts
    have hupd : s.updateDirectionIfIdle =
        (if (if nearestScan s.currentFloor (t0 :: ts) t0 > s.currentFloor then Direction.Up
             else if nearestScan s.currentFloor (t0 :: ts) t0 < s.currentFloor then Direction.Down
             else Direction.Idle) = Direction.Idle then
          (Lift.openDoors
            { s with direction :=
                if nearestScan s.currentFloor (t0 :: ts) t0 > s.currentFloor then Direction.Up
                else if nearestScan s.currentFloor (t0 :: ts) t0 < s.currentFloor then
                  Direction.Down
                else Direction.Idle }).2
        else
          { s with direction :=
              if nearestScan s.currentFloor (t0 :: ts) t0 > s.currentFloor then Direction.Up
              else if nearestScan s.currentFloor (t0 :: ts) t0 < s.currentFloor then
                Direction.Down
              else Direction.Idle }) := by
      unfold Lift.updateDirectionIfIdle
      rw [if_neg hne, hpend]
      simp only [Bool.not_true, Bool.false_eq_true, if_false, htg]
    refine ⟨nearestScan s.currentFloor (t0 :: ts) t0, hfn, ?_, ?_, ?_⟩
    · rcases lt_trichotomy (nearestScan s.currentFloor (t0 :: ts) t0) s.currentFloor
        with hlt | heq | hgt
      · have hnd : (if nearestScan s.currentFloor (t0 :: ts) t0 > s.currentFloor then
              Direction.Up
            else if nearestScan s.currentFloor (t0 :: ts) t0 < s.currentFloor then
              Direction.Down
            else Direction.Idle) = Direction.Down := by
          rw [if_neg (by exact lt_asymm hlt), if_pos hlt]
        rw [hnd] at hupd
        rw [if_neg (by simp : ¬ Direction.Down = Direction.Idle)] at hupd
        rw [hupd, hnd]
      · have hnd : (if nearestScan s.currentFloor (t0 :: ts) t0 > s.currentFloor then
              Direction.Up
            else if nearestScan s.currentFloor (t0 :: ts) t0 < s.currentFloor then
              Direction.Down
            else Direction.Idle) = Direction.Idle := by
          rw [heq]
          simp
        rw [hnd] at hupd
        rw [if_pos rfl] at hupd
        rw [hupd, hnd]
        exact Lift.openDoors_direction_idle _ rfl
      · have hnd : (if nearestScan s.currentFloor (t0 :: ts) t0 > s.currentFloor then
              Direction.Up
            else if nearestScan s.currentFloor (t0 :: ts) t0 < s.currentFloor then
              Direction.Down
            else Direction.Idle) = Direction.Up := by
          rw [if_pos hgt]
        rw [hnd] at hupd
        rw [if_neg (by simp : ¬ Direction.Up = Direction.Idle)] at hupd
        rw [hupd, hnd]
    · intro hx
      have hnd : (if nearestScan s.currentFloor (t0 :: ts) t0 > s.currentFloor then
            Direction.Up
          else if nearestScan s.currentFloor (t0 :: ts) t0 < s.currentFloor then
            Direction.Down
          else Direction.Idle) = Direction.Idle := by
        rw [hx]
        simp
      rw [hnd] at hupd
      rw [if_pos rfl] at hupd
      exact hupd
    · intro hx
      rcases lt_trichotomy (nearestScan s.currentFloor (t0 :: ts) t0) s.currentFloor
        with hlt | heq | hgt
      · have hnd : (if nearestScan s.currentFloor (t0 :: ts) t0 > s.currentFloor then
              Direction.Up
            else if nearestScan s.currentFloor (t0 :: ts) t0 < s.currentFloor then
              Direction.Down
            else Direction.Idle) = Direction.Down := by
          rw [if_neg (by exact lt_asymm hlt), if_pos hlt]
        rw [hnd] at hupd
        rw [if_neg (by simp : ¬ Direction.Down = Direction.Idle)] at hupd
        rw [hupd, if_neg (by exact lt_asymm hlt)]
      · exact absurd heq hx
      · have hnd : (if nearestScan s.currentFloor (t0 :: ts) t0 > s.currentFloor then
              Direction.Up
            else if nearestScan s.currentFloor (t0 :: ts) t0 < s.currentFloor then
              Direction.Down
            else Direction.Idle) = Direction.Up := by
          rw [if_pos hgt]
        rw [hnd] at hupd
        rw [if_neg (by simp : ¬ Direction.Up = Direction.Idle)] at hupd
        rw [hupd, if_pos hgt]

/-- C3 (amended): whenever the idle dispatch evaluation runs with the
direction `Idle` and at least one pending request or call, it selects the
first-encountered minimum-distance candidate from the union of
panel-request floors (in `Set` insertion order, the order of first
insertion — not ascending order) followed by call floors in insertion
order, then sets direction `Up` if the chosen candidate is above the
current floor, `Down` if below, and `Idle` with a detached door-open if
equal. -/
theorem direction_selection (s : Lift)
    (hidle : s.direction = Direction.Idle)
    (hpend : s.hasPendingRequests = true) :
    ∃ x, FirstNearest s.currentFloor (s.panelRequests ++ s.calls.map (fun c => c.floor)) x ∧
      s.updateDirectionIfIdle.direction =
        (if x > s.currentFloor then Direction.Up
         else if x < s.currentFloor then Direction.Down
         else Direction.Idle) ∧
      (x = s.currentFloor →
        s.updateDirectionIfIdle = ({ s with direction := Direction.Idle }.openDoors).2) ∧
      (x ≠ s.currentFloor →
        s.updateDirectionIfIdle =
          { s with direction :=
              if x > s.currentFloor then Direction.Up else Direction.Down }) :=
  Lift.updateDirection_selects s hidle hpend

/-- C3 counterexample: floors 5 and 3 pressed in that order, car idle at
floor 4.  Under the claimed ascending iteration the candidates are
`[3, 5]`, whose first-encountered nearest element is 3, below the current
floor, so the claim predicts `Down`; the code iterates the `Set` in
insertion order `[5, 3]` and goes `Up`. -/
theorem direction_selection_cex :
    cex3.direction = Direction.Idle ∧ cex3.hasPendingRequests = true ∧
    ascendingTargets cex3 = [3, 5] ∧
    FirstNearest cex3.currentFloor (ascendingTargets cex3) 3 ∧
    (3 : Int) < cex3.currentFloor ∧
    cex3.updateDirectionIfIdle.direction = Direction.Up := by
  refine ⟨rfl, rfl, by decide, ⟨by decide, [], [5], by decide, by decide⟩, by decide, by decide⟩

/-- Witness for the amended C3 theorem at the same state: the actual
candidate order is `[5, 3]` and the selection goes `Up`. -/
theorem direction_selection_witness :
    ∃ x, FirstNearest cex3.currentFloor
        (cex3.panelRequests ++ cex3.calls.map (fun c => c.floor)) x ∧
      cex3.updateDirectionIfIdle.direction =
        (if x > cex3.currentFloor then Direction.Up
         else if x < cex3.currentFloor then Direction.Down
         else Direction.Idle) ∧
      (x = cex3.currentFloor →
        cex3.updateDirectionIfIdle = ({ cex3 with direction := Direction.Idle }.openDoors).2) ∧
      (x ≠ cex3.currentFloor →
        cex3.updateDirectionIfIdle =
          { cex3 with direction :=
              if x > cex3.currentFloor then Direction.Up else Direction.Down }) :=
  direction_selection cex3 rfl rfl

/-- C6 counterexample: with `busy` set and the doors already open,
`openDoors()` succeeds as a no-op instead of failing with `BusyError`, and
`moveOneFloor()` fails with `DoorsOpenError` rather than `BusyError`. -/
theorem mutual_exclusion_cex :
    cex6.busy = true ∧
    cex6.openDoors = (Except.ok (), cex6) ∧
    (cex6.moveOneFloor).1 = Except.error LiftError.doorsOpenError :=
  ⟨rfl, rfl, rfl⟩

/-- C6 (amended): while `busy` is set, any timed operation that reaches its
busy check fails with `BusyError` and leaves the state unchanged — that is
`openDoors` and `moveOneFloor` when the doors are closed, and `closeDoors`
when they are open; in the remaining combinations an earlier check
short-circuits (no-op success, or `DoorsOpenError` for `moveOneFloor`). -/
theorem mutual_exclusion (s : Lift) (hb : s.busy = true) :
    (s.doors = DoorState.Closed →
      s.openDoors = (Except.error LiftError.busyError, s) ∧
      s.moveOneFloor = (Except.error LiftError.busyError, s)) ∧
    (s.doors = DoorState.Open →
      s.closeDoors = (Except.error LiftError.busyError, s) ∧
      s.openDoors = (Except.ok (), s) ∧
      s.moveOneFloor = (Except.error LiftError.doorsOpenError, s)) ∧
    (s.doors = DoorState.Closed → s.closeDoors = (Except.ok (), s)) := by
  refine ⟨?_, ?_, ?_⟩
  · intro hd
    constructor
    · unfold Lift.openDoors
      rw [if_neg (by simp [hd] : ¬ s.doors = DoorState.Open), if_pos hb]
    · unfold Lift.moveOneFloor
      rw [if_neg (by simp [hd] : ¬ s.doors = DoorState.Open), if_pos hb]
  · intro hd
    refine ⟨?_, ?_, ?_⟩
    · unfold Lift.closeDoors
      rw [if_neg (by simp [hd] : ¬ s.doors = DoorState.Closed), if_pos hb]
    · unfold Lift.openDoors
      rw [if_pos hd]
    · unfold Lift.moveOneFloor
      rw [if_pos hd]
  · intro hd
    unfold Lift.closeDoors
    rw [if_pos hd]

/-- Witness for C6 at two busy states: doors closed for
`openDoors`/`moveOneFloor`, doors open for `closeDoors`. -/
theorem mutual_exclusion_witness :
    w6.openDoors = (Except.error LiftError.busyError, w6) ∧
    w6.moveOneFloor = (Except.error LiftError.busyError, w6) ∧
    w8.closeDoors = (Except.error LiftError.busyError, w8) :=
  ⟨((mutual_exclusion w6 rfl).1 rfl).1, ((mutual_exclusion w6 rfl).1 rfl).2,
    ((mutual_exclusion w8 rfl).2.1 rfl).1⟩

/-- C7 counterexample: at `cex7` — idle at floor 4, doors closed, panel
request for floor 4 — `moveOneFloor()` fails with `NoDestinationError`,
yet the fire-and-forget door-open spawned by its direction evaluation
opens the doors and clears the request store. -/
theorem error_atomicity_cex :
    (cex7.moveOneFloor).1 = Except.error LiftError.noDestinationError ∧
    cex7.doors = DoorState.Closed ∧
    (cex7.moveOneFloor).2.doors = DoorState.Open ∧
    cex7.panelRequests = [4] ∧
    (cex7.moveOneFloor).2.panelRequests = [] :=
  ⟨rfl, rfl, rfl, rfl, rfl⟩

/-- When nothing is pending, the idle re-evaluation is the identity. -/
theorem Lift.updateDirectionIfIdle_noPending (s : Lift)
    (hidle : s.direction = Direction.Idle)
    (hpend : ¬ s.hasPendingRequests = true) :
    s.updateDirectionIfIdle = s := by
  have hne : ¬ s.direction ≠ Direction.Idle := by rw [hidle]; simp
  have hf : s.hasPendingRequests = false := by
    cases hval : s.hasPendingRequests
    · rfl
    · exact absurd hval hpend
  unfold Lift.updateDirectionIfIdle
  rw [if_neg hne, hf]
  simp only [Bool.not_false, if_true]
  rw [← hidle]

/-- C7 (amended): a failing operation leaves the state exactly as it was,
except that a `moveOneFloor` whose direction evaluation resolves to the
current floor fires the detached door-open before failing with
`NoDestinationError`; when no panel request or call targets the current
floor, a failing `moveOneFloor` is also mutation-free. -/
theorem error_atomicity (s : Lift) :
    (∀ f : Int, f < s.minFloor ∨ f > s.maxFloor →
      s.pressButton f = (Except.error LiftError.outOfRangeError, s)) ∧
    (∀ f : Int, ∀ d : CallDir, f < s.minFloor ∨ f > s.maxFloor →
      s.callFrom f d = (Except.error LiftError.outOfRangeError, s)) ∧
    (∀ e : LiftError, (s.openDoors).1 = Except.error e → (s.openDoors).2 = s) ∧
    (∀ e : LiftError, (s.closeDoors).1 = Except.error e → (s.closeDoors).2 = s) ∧
    (s.currentFloor ∉ s.panelRequests → (∀ c ∈ s.calls, c.floor ≠ s.currentFloor) →
      ∀ e : LiftError, (s.moveOneFloor).1 = Except.error e → (s.moveOneFloor).2 = s) := by
  refine ⟨?_, ?_, ?_, ?_, ?_⟩
  · intro f hf
    unfold Lift.pressButton
    rw [if_pos hf]
  · intro f d hf
    unfold Lift.callFrom
    rw [if_pos hf]
  · intro e h
    unfold Lift.openDoors at h ⊢
    split at h
    · simp at h
    · split at h
      · simp_all
      · simp at h
  · intro e h
    unfold Lift.closeDoors at h ⊢
    split at h
    · simp at h
    · split at h
      · simp_all
      · simp at h
  · intro hcur hcalls e h
    unfold Lift.moveOneFloor at h ⊢
    dsimp only at h ⊢
    by_cases h1 : s.doors = DoorState.Open
    · rw [if_pos h1] at h ⊢
    · rw [if_neg h1] at h ⊢
      by_cases h2 : s.busy = true
      · rw [if_pos h2] at h ⊢
      · have hbf : s.busy = false := by
          cases hval : s.busy
          · rfl
          · exact absurd hval h2
        rw [if_neg h2] at h ⊢
        by_cases hidle : s.direction = Direction.Idle
        · rw [if_pos hidle] at h ⊢
          by_cases hpend : s.hasPendingRequests = true
          · obtain ⟨x, hfn, hdirx, -, hneqcase⟩ := Lift.updateDirection_selects s hidle hpend
            have hxmem := hfn.mem
            have hxne : x ≠ s.currentFloor := by
              intro hxeq
              rw [hxeq] at hxmem
              rcases List.mem_append.mp hxmem with hm | hm
              · exact hcur hm
              · obtain ⟨c, hc, hcf⟩ := List.mem_map.mp hm
                exact hcalls c hc hcf
            have hupd := hneqcase hxne
            rw [hupd] at h ⊢
            dsimp only at h ⊢
            have hd2 : ¬ ((if x > s.currentFloor then Direction.Up else Direction.Down)
                = Direction.Idle) := by
              split <;> simp
            rw [if_neg hd2] at h ⊢
            exfalso
            set D : Direction := if x > s.currentFloor then Direction.Up else Direction.Down
              with hD
            by_cases hedge : s.currentFloor + D.toInt < s.minFloor ∨
                s.currentFloor + D.toInt > s.maxFloor
            · rw [if_pos hedge] at h
              simp at h
            · rw [if_neg hedge] at h
              by_cases hstop : Lift.shouldStopAtFloor
                  { s with
                    direction := D
                    currentFloor := s.currentFloor + D.toInt
                    time := s.time + 3000 }
                  (s.currentFloor + D.toInt) = true
              · rw [if_pos hstop] at h
                have hok := (Lift.openDoors_run
                  { s with
                    direction := D
                    currentFloor := s.currentFloor + D.toInt
                    time := s.time + 3000 } h1 hbf).1
                rw [hok] at h
                simp at h
              · rw [if_neg hstop] at h
                simp at h
          · have hupd := Lift.updateDirectionIfIdle_noPending s hidle hpend
            rw [hupd] at h ⊢
            rw [if_pos hidle] at h ⊢
        · rw [if_neg hidle] at h ⊢
          rw [if_neg hidle] at h ⊢
          exfalso
          by_cases hedge : s.currentFloor + s.direction.toInt < s.minFloor ∨
              s.currentFloor + s.direction.toInt > s.maxFloor
          · rw [if_pos hedge] at h
            simp at h
          · rw [if_neg hedge] at h
            by_cases hstop : Lift.shouldStopAtFloor
                { s with
                  currentFloor := s.currentFloor + s.direction.toInt
                  time := s.time + 3000 }
                (s.currentFloor + s.direction.toInt) = true
            · rw [if_pos hstop] at h
              have hok := (Lift.openDoors_run
                { s with
                  currentFloor := s.currentFloor + s.direction.toInt
                  time := s.time + 3000 } h1 hbf).1
              rw [hok] at h
              simp at h
            · rw [if_neg hstop] at h
              simp at h

/-- Witness for C7 at the fresh `(1, 5, 3)` car: an out-of-range press and
an idle `moveOneFloor` with nothing pending both leave the state intact. -/
theorem error_atomicity_witness :
    lift153.pressButton 9 = (Except.error LiftError.outOfRangeError, lift153) ∧
    (lift153.moveOneFloor).2 = lift153 :=
  ⟨(error_atomicity lift153).1 9 (by decide),
    (error_atomicity lift153).2.2.2.2 (by decide) (by decide)
      LiftError.noDestinationError rfl⟩

/-- C9: end-to-end scenario — fresh car `(min=1, max=5, start=3)`, a
`callFrom(1, Down)` sets direction `Down`, and `stepUntilStop()` with its
default bound of 1000 steps ends at floor 1 with the doors open and the
call queue empty. -/
theorem scenario_call_down_to_one :
    mkLift 1 5 3 = Except.ok lift153 ∧
    (lift153.callFrom 1 CallDir.Down).1 = Except.ok () ∧
    (lift153.callFrom 1 CallDir.Down).2.direction = Direction.Down ∧
    ((lift153.callFrom 1 CallDir.Down).2.stepUntilStop 1000).2.currentFloor = 1 ∧
    ((lift153.callFrom 1 CallDir.Down).2.stepUntilStop 1000).2.doors = DoorState.Open ∧
    ((lift153.callFrom 1 CallDir.Down).2.stepUntilStop 1000).2.pendingCalls = [] :=
  ⟨rfl, rfl, rfl, rfl, rfl, rfl⟩

/-- One `moveOneFloor` keeps the current floor within the bounds. -/
theorem Lift.moveOneFloor_inv (s : Lift)
    (h1 : s.minFloor ≤ s.currentFloor) (h2 : s.currentFloor ≤ s.maxFloor) :
    (s.moveOneFloor).2.minFloor ≤ (s.moveOneFloor).2.currentFloor ∧
    (s.moveOneFloor).2.currentFloor ≤ (s.moveOneFloor).2.maxFloor := by
  obtain ⟨e1, e2, e3⟩ := Lift.updateDirectionIfIdle_floorEq s
  unfold Lift.moveOneFloor
  dsimp only
  split
  · exact ⟨h1, h2⟩
  split
  · exact ⟨h1, h2⟩
  by_cases hid : s.direction = Direction.Idle
  · rw [if_pos hid]
    by_cases hid2 : (s.updateDirectionIfIdle).direction = Direction.Idle
    · rw [if_pos hid2]
      exact ⟨by dsimp only; omega, by dsimp only; omega⟩
    · rw [if_neg hid2]
      by_cases hedge : (s.updateDirectionIfIdle).currentFloor +
            (s.updateDirectionIfIdle).direction.toInt < (s.updateDirectionIfIdle).minFloor ∨
          (s.updateDirectionIfIdle).currentFloor + (s.updateDirectionIfIdle).direction.toInt >
            (s.updateDirectionIfIdle).maxFloor
      · rw [if_pos hedge]
        exact ⟨by dsimp only; omega, by dsimp only; omega⟩
      · rw [if_neg hedge]
        push_neg at hedge
        by_cases hstop : Lift.shouldStopAtFloor
            { s.updateDirectionIfIdle with
              currentFloor := (s.updateDirectionIfIdle).currentFloor +
                (s.updateDirectionIfIdle).direction.toInt
              time := (s.updateDirectionIfIdle).time + 3000 }
            ((s.updateDirectionIfIdle).currentFloor +
              (s.updateDirectionIfIdle).direction.toInt) = true
        · rw [if_pos hstop]
          obtain ⟨f1, f2, f3⟩ := Lift.openDoors_floorEq
            { s.updateDirectionIfIdle with
              currentFloor := (s.updateDirectionIfIdle).currentFloor +
                (s.updateDirectionIfIdle).direction.toInt
              time := (s.updateDirectionIfIdle).time + 3000 }
          dsimp only at f1 f2 f3
          exact ⟨by rw [f1, f3]; exact hedge.1, by rw [f2, f3]; exact hedge.2⟩
        · rw [if_neg hstop]
          exact ⟨by dsimp only; exact hedge.1, by dsimp only; exact hedge.2⟩
  · rw [if_neg hid]
    rw [if_neg hid]
    by_cases hedge : s.currentFloor + s.direction.toInt < s.minFloor ∨
        s.currentFloor + s.direction.toInt > s.maxFloor
    · rw [if_pos hedge]
      exact ⟨by dsimp only; omega, by dsimp only; omega⟩
    · rw [if_neg hedge]
      push_neg at hedge
      by_cases hstop : Lift.shouldStopAtFloor
          { s with
            currentFloor := s.currentFloor + s.direction.toInt
            time := s.time + 3000 }
          (s.currentFloor + s.direction.toInt) = true
      · rw [if_pos hstop]
        obtain ⟨f1, f2, f3⟩ := Lift.openDoors_floorEq
          { s with
            currentFloor := s.currentFloor + s.direction.toInt
            time := s.time + 3000 }
        dsimp only at f1 f2 f3
        exact ⟨by rw [f1, f3]; exact hedge.1, by rw [f2, f3]; exact hedge.2⟩
      · rw [if_neg hstop]
        exact ⟨by dsimp only; exact hedge.1, by dsimp only; exact hedge.2⟩

/-- Iterated stepping keeps the current floor within the bounds. -/
theorem Lift.stepUntilStop_inv (n : Nat) : ∀ s : Lift,
    s.minFloor ≤ s.currentFloor → s.currentFloor ≤ s.maxFloor →
    (s.stepUntilStop n).2.minFloor ≤ (s.stepUntilStop n).2.currentFloor ∧
    (s.stepUntilStop n).2.currentFloor ≤ (s.stepUntilStop n).2.maxFloor := by
  induction n with
  | zero =>
    intro s h1 h2
    exact ⟨h1, h2⟩
  | succ n ih =>
    intro s h1 h2
    unfold Lift.stepUntilStop
    split
    · exact ⟨h1, h2⟩
    · have hmv := Lift.moveOneFloor_inv s h1 h2
      rcases hm : s.moveOneFloor with ⟨r, s'⟩
      rw [hm] at hmv
      cases r with
      | ok _ =>
        dsimp only
        exact ih s' hmv.1 hmv.2
      | error e =>
        dsimp only
        exact hmv

/-- C1: every state reachable from a validly constructed lift through any
sequence of public operations keeps `minFloor ≤ currentFloor ≤ maxFloor`;
construction establishes the bounds and the edge-reversal guard in
`moveOneFloor` preserves them. -/
theorem range_invariant (s : Lift) (h : Reachable s) :
    s.minFloor ≤ s.currentFloor ∧ s.currentFloor ≤ s.maxFloor := by
  induction h with
  | init minF maxF startF s0 hs =>
    unfold mkLift at hs
    split at hs
    · exact absurd hs (by simp)
    · split at hs
      · exact absurd hs (by simp)
      · rename_i hgt hout
        injection hs with hs
        subst hs
        push_neg at hgt hout
        dsimp only
        exact ⟨hout.1, hout.2⟩
  | step s0 o hr ih =>
    cases o with
    | press f =>
      obtain ⟨e1, e2, e3⟩ := Lift.pressButton_floorEq s0 f
      simp only [applyOp]
      exact ⟨by rw [e1, e3]; exact ih.1, by rw [e3, e2]; exact ih.2⟩
    | call f d =>
      obtain ⟨e1, e2, e3⟩ := Lift.callFrom_floorEq s0 f d
      simp only [applyOp]
      exact ⟨by rw [e1, e3]; exact ih.1, by rw [e3, e2]; exact ih.2⟩
    | openD =>
      obtain ⟨e1, e2, e3⟩ := Lift.openDoors_floorEq s0
      simp only [applyOp]
      exact ⟨by rw [e1, e3]; exact ih.1, by rw [e3, e2]; exact ih.2⟩
    | closeD =>
      obtain ⟨e1, e2, e3⟩ := Lift.closeDoors_floorEq s0
      simp only [applyOp]
      exact ⟨by rw [e1, e3]; exact ih.1, by rw [e3, e2]; exact ih.2⟩
    | move =>
      simp only [applyOp]
      exact Lift.moveOneFloor_inv s0 ih.1 ih.2
    | step n =>
      simp only [applyOp]
      exact Lift.stepUntilStop_inv n s0 ih.1 ih.2

/-- Witness for C1: the freshly constructed `(1, 5, 3)` car after a call
and a run to its stop is reachable and in range. -/
theorem range_invariant_witness :
    (((lift153.callFrom 1 CallDir.Down).2.stepUntilStop 1000).2.minFloor ≤
      ((lift153.callFrom 1 CallDir.Down).2.stepUntilStop 1000).2.currentFloor ∧
     ((lift153.callFrom 1 CallDir.Down).2.stepUntilStop 1000).2.currentFloor ≤
      ((lift153.callFrom 1 CallDir.Down).2.stepUntilStop 1000).2.maxFloor) :=
  range_invariant _
    (Reachable.step _ (Op.step 1000)
      (Reachable.step _ (Op.call 1 CallDir.Down)
        (Reachable.init 1 5 3 lift153 rfl)))
